import Mathlib

/-
Shallow embedding of Plugins/BigNoob/Source/BigNoob/Private/BigNoobBPLibrary.cpp.

Point coordinates are exact rationals (every finite IEEE float is a rational
number), so the purely algebraic parts (subtraction, cross and dot products,
squared sizes, the collinearity test, the outlier filter) are computable and
decidable.  Normalization and angles need square roots and arccos, so plane
normals, angle sums and quaternions live in the real numbers; float rounding
is idealized away, as in the specification.

Engine primitives used by the source are embedded with their engine semantics:
- FVector::GetSafeNormal(Tolerance = SMALL_NUMBER = 1e-8): returns the zero
  vector when the squared size is below the tolerance, otherwise divides by
  the size.
- KINDA_SMALL_NUMBER = 1e-4, MAX_flt = 2^128 - 2^104 (the largest finite
  32-bit float).
- FPlane(Base, Normal) stores the normal components and W = Base dot Normal;
  FPlane inherits GetSafeNormal from FVector, acting on the normal part.
- FMath::Clamp(X, Lo, Hi) = (X < Lo) ? Lo : (X < Hi) ? X : Hi.
- FMath::Acos clamps its argument to [-1, 1] before calling acos.
- FQuat(Axis, AngleRad) = (sin(a/2)*Axis.X, sin(a/2)*Axis.Y, sin(a/2)*Axis.Z,
  cos(a/2)); FQuat::Identity = (0,0,0,1).
-/

/-- A 3-d vector with exact rational coordinates (an input point). -/
structure QVec3 where
  x : ℚ
  y : ℚ
  z : ℚ
deriving DecidableEq, Repr

/-- The rational zero vector. -/
def qzero : QVec3 := ⟨0, 0, 0⟩

/-- Componentwise subtraction of rational vectors (FVector operator-). -/
def qsub (a b : QVec3) : QVec3 := ⟨a.x - b.x, a.y - b.y, a.z - b.z⟩

/-- FVector::CrossProduct on rational vectors. -/
def qcross (a b : QVec3) : QVec3 :=
  ⟨a.y * b.z - a.z * b.y, a.z * b.x - a.x * b.z, a.x * b.y - a.y * b.x⟩

/-- FVector::SizeSquared on rational vectors. -/
def qsizeSquared (a : QVec3) : ℚ := a.x * a.x + a.y * a.y + a.z * a.z

/-- FVector::DistSquared. -/
def qdistSquared (a b : QVec3) : ℚ := qsizeSquared (qsub a b)

/-- A 3-d vector with real coordinates (normals, axes). -/
structure RVec3 where
  x : ℝ
  y : ℝ
  z : ℝ

/-- The real zero vector (FVector::ZeroVector). -/
def rzero : RVec3 := ⟨0, 0, 0⟩

/-- Inclusion of rational vectors into real vectors. -/
def toR (a : QVec3) : RVec3 := ⟨(a.x : ℝ), (a.y : ℝ), (a.z : ℝ)⟩

/-- FVector::DotProduct on real vectors. -/
def rdot (a b : RVec3) : ℝ := a.x * b.x + a.y * b.y + a.z * b.z

/-- FVector::CrossProduct on real vectors. -/
def rcross (a b : RVec3) : RVec3 :=
  ⟨a.y * b.z - a.z * b.y, a.z * b.x - a.x * b.z, a.x * b.y - a.y * b.x⟩

/-- FVector::SizeSquared on real vectors. -/
def rsizeSquared (a : RVec3) : ℝ := a.x * a.x + a.y * a.y + a.z * a.z

/-- Scalar multiple of a real vector. -/
def rsmul (c : ℝ) (a : RVec3) : RVec3 := ⟨c * a.x, c * a.y, c * a.z⟩

/-- FVector::Size, the euclidean length. -/
noncomputable def rsize (a : RVec3) : ℝ := Real.sqrt (rsizeSquared a)

/-- SMALL_NUMBER = 1e-8, the default tolerance of FVector::GetSafeNormal. -/
noncomputable def smallNumber : ℝ := 1 / 100000000

/-- KINDA_SMALL_NUMBER = 1e-4, the collinearity tolerance used by
ConstructPlaneFromPoints. -/
def kindaSmallNumber : ℚ := 1 / 10000

/-- FVector::GetSafeNormal with the default tolerance: the zero vector when
the squared size is below SMALL_NUMBER, otherwise the vector divided by its
size. -/
noncomputable def getSafeNormal (v : RVec3) : RVec3 :=
  if rsizeSquared v < smallNumber then rzero else rsmul (rsize v)⁻¹ v

/-- FPlane: the normal components X, Y, Z and W = Base dot Normal. -/
structure FPlane where
  nx : ℝ
  ny : ℝ
  nz : ℝ
  w : ℝ

/-- The vector part (X, Y, Z) of an FPlane, on which the inherited
FVector::GetSafeNormal acts. -/
def planeNormal (p : FPlane) : RVec3 := ⟨p.nx, p.ny, p.nz⟩

/-- FPlane(Base, Normal): stores the normal and W = Base dot Normal. -/
def mkPlane (base normal : RVec3) : FPlane :=
  ⟨normal.x, normal.y, normal.z, rdot base normal⟩

/-- ConstructPlaneFromPoints (BigNoobBPLibrary.cpp lines 64-79): the cross
product of (B-A) and (C-A); if its squared size is at most
KINDA_SMALL_NUMBER the triple is collinear and no plane is produced (the
source returns false), otherwise the plane through A with the normalized
cross product as normal (the source returns true and writes OutPlane). -/
noncomputable def ConstructPlaneFromPoints (A B C : QVec3) : Option FPlane :=
  let cp := qcross (qsub B A) (qsub C A)
  if qsizeSquared cp ≤ kindaSmallNumber then none
  else some (mkPlane (toR A) (getSafeNormal (toR cp)))

/-- The index triples visited by the three nested loops of FindMedianPlane
(lines 87-99): i from 0 while i < n-2, j from i+1 while j < n-1, k from j+1
while k < n, in that order. -/
def loopTriples (n : ℕ) : List (ℕ × ℕ × ℕ) :=
  (List.range (n - 2)).flatMap fun i =>
    (List.range' (i + 1) (n - 1 - (i + 1))).flatMap fun j =>
      (List.range' (j + 1) (n - (j + 1))).map fun k => (i, j, k)

/-- The ValidPlanes array built by FindMedianPlane (lines 83-100): for each
index triple in loop order, the plane constructed by ConstructPlaneFromPoints,
kept only when construction succeeds. -/
noncomputable def ValidPlanes (pts : List QVec3) : List FPlane :=
  (loopTriples pts.length).filterMap fun t =>
    ConstructPlaneFromPoints (pts.getD t.1 qzero) (pts.getD t.2.1 qzero)
      (pts.getD t.2.2 qzero)

/-- FMath::Clamp: (X < Lo) ? Lo : (X < Hi) ? X : Hi. -/
noncomputable def clampR (x lo hi : ℝ) : ℝ :=
  if x < lo then lo else if x < hi then x else hi

/-- The angle the selection loop adds for a pair of normals (lines 113-116):
acosf of the dot product clamped to [-1, 1]. -/
noncomputable def angleBetween (a b : RVec3) : ℝ :=
  Real.arccos (clampR (rdot a b) (-1) 1)

/-- The AngleSum computed for candidate i (lines 107-118): the sum over all
indices j different from i of the angle between normal i and normal j. -/
noncomputable def angleSumAt (ns : List RVec3) (i : ℕ) : ℝ :=
  ∑ j ∈ Finset.range ns.length,
    if j = i then 0 else angleBetween (ns.getD i rzero) (ns.getD j rzero)

/-- MAX_flt = 2^128 - 2^104, the initial value of SmallestAngleSum
(line 103). -/
def maxFlt : ℝ := 340282346638528859811704183484516925440

/-- A default FPlane value, used only for out-of-range list reads that the
source never performs. -/
def defaultPlane : FPlane := ⟨0, 0, 0, 0⟩

/-- One iteration of the selection loop (lines 105-126): if the AngleSum of
candidate i is strictly below the smallest sum seen so far, candidate i
becomes the median plane. -/
noncomputable def selectStep (ns : List RVec3) (valid : List FPlane)
    (st : FPlane × ℝ) (i : ℕ) : FPlane × ℝ :=
  if angleSumAt ns i < st.2 then (valid.getD i defaultPlane, angleSumAt ns i)
  else st

/-- The selection loop of FindMedianPlane (lines 102-126): starting from
MedianPlane = ValidPlanes[0] and SmallestAngleSum = MAX_flt, fold the update
step over all candidate indices and return the final median plane. -/
noncomputable def SelectMedian (valid : List FPlane) : FPlane :=
  ((List.range valid.length).foldl
    (selectStep (valid.map fun p => getSafeNormal (planeNormal p)) valid)
    (valid.headD defaultPlane, maxFlt)).1

/-- FindMedianPlane (lines 81-129).  When ValidPlanes is empty the source
reads ValidPlanes[0] out of bounds (line 104, undefined behavior); that read
is modelled as the value none.  Otherwise the selection loop runs. -/
noncomputable def FindMedianPlane (pts : List QVec3) : Option FPlane :=
  match ValidPlanes pts with
  | [] => none
  | _ :: _ => some (SelectMedian (ValidPlanes pts))

/-- FQuat as the 4-tuple (X, Y, Z, W). -/
structure FQuat where
  x : ℝ
  y : ℝ
  z : ℝ
  w : ℝ

/-- FQuat::Identity = (0, 0, 0, 1). -/
def quatIdentity : FQuat := ⟨0, 0, 0, 1⟩

/-- The squared size of a quaternion; a rotation quaternion has squared
size 1. -/
def quatSizeSquared (q : FQuat) : ℝ := q.x * q.x + q.y * q.y + q.z * q.z + q.w * q.w

/-- FQuat(Axis, AngleRad): components sin(a/2) times the axis, and
cos(a/2). -/
noncomputable def quatFromAxisAngle (axis : RVec3) (angle : ℝ) : FQuat :=
  ⟨Real.sin (angle / 2) * axis.x, Real.sin (angle / 2) * axis.y,
    Real.sin (angle / 2) * axis.z, Real.cos (angle / 2)⟩

/-- FMath::Acos: acos of the argument clamped to [-1, 1]
((V < -1) ? -1 : (V < 1) ? V : 1). -/
noncomputable def fmathAcos (x : ℝ) : ℝ :=
  Real.arccos (if x < -1 then -1 else if x < 1 then x else 1)

/-- The reference up axis (0, 0, 1) of FindQuatFromPlane (line 143). -/
def upVector : RVec3 := ⟨0, 0, 1⟩

/-- FindQuatFromPlane (lines 131-149): with fewer than 3 points, log a
warning and return the identity quaternion; otherwise take the median plane,
normalize its normal, and build the quaternion from the axis
GetSafeNormal(up cross normal) and the angle FMath::Acos(up dot normal).
The out-of-bounds read inside FindMedianPlane propagates as none. -/
noncomputable def FindQuatFromPlane (pts : List QVec3) : Option FQuat :=
  if pts.length < 3 then some quatIdentity
  else (FindMedianPlane pts).map fun best =>
    quatFromAxisAngle
      (getSafeNormal (rcross upVector (getSafeNormal (planeNormal best))))
      (fmathAcos (rdot upVector (getSafeNormal (planeNormal best))))

/-- The diagnostic conditions of the estimator. -/
inductive Signal where
  | ok
  | insufficientPoints
  | noValidPlane

/-- Modelled from the spec: the diagnostic condition accompanying the
returned rotation (spec sections 6 and 7).  The source only logs a warning
in the fewer-than-3-points branch (line 135) and has no explicit signal for
an empty candidate set (it faults there instead), so the condition taxonomy
is taken from the specification. -/
noncomputable def signalOf (pts : List QVec3) : Signal :=
  if pts.length < 3 then Signal.insufficientPoints
  else match ValidPlanes pts with
    | [] => Signal.noValidPlane
    | _ :: _ => Signal.ok

/-- TArray::RemoveAt on the list model: drop the element at index i. -/
def removeAtIdx (l : List QVec3) (i : ℕ) : List QVec3 :=
  l.take i ++ l.drop (i + 1)

/-- The backward loop of RemoveOutliers (lines 21-27): the first argument is
one past the next index to inspect; index i is removed when its squared
distance to the centroid exceeds the squared threshold. -/
def RemoveOutliersLoop (c : QVec3) (t2 : ℚ) : ℕ → List QVec3 → List QVec3
  | 0, pts => pts
  | i + 1, pts =>
    RemoveOutliersLoop c t2 i
      (if t2 < qdistSquared (pts.getD i qzero) c then removeAtIdx pts i else pts)

/-- RemoveOutliers (lines 18-28): squares the threshold and runs the
backward removal loop from the last index. -/
def RemoveOutliers (pts : List QVec3) (c : QVec3) (t : ℚ) : List QVec3 :=
  RemoveOutliersLoop c (t * t) pts.length pts

/-
Specification-side definitions, written from the words of the claims so
they can be compared with the source embedding above.
-/

/-- Spec wording for C2: every combination of 3 distinct indices i < j < k,
each unordered triple once, in enumeration order. -/
def specTriples (n : ℕ) : List (ℕ × ℕ × ℕ) :=
  (List.range n).flatMap fun i =>
    (List.range n).flatMap fun j =>
      (List.range n).flatMap fun k =>
        if i < j ∧ j < k then [(i, j, k)] else []

/-- Spec wording for C2: keep exactly the triples whose cross product has
squared magnitude above the collinearity epsilon, and emit for each the
plane through points[i] with the normalized cross product as normal. -/
noncomputable def specPlaneSet (pts : List QVec3) : List FPlane :=
  ((specTriples pts.length).filter fun t =>
      kindaSmallNumber <
        qsizeSquared (qcross (qsub (pts.getD t.2.1 qzero) (pts.getD t.1 qzero))
          (qsub (pts.getD t.2.2 qzero) (pts.getD t.1 qzero)))).map
    fun t =>
      mkPlane (toR (pts.getD t.1 qzero))
        (getSafeNormal (toR
          (qcross (qsub (pts.getD t.2.1 qzero) (pts.getD t.1 qzero))
            (qsub (pts.getD t.2.2 qzero) (pts.getD t.1 qzero)))))

/-- The normals the selection loop compares: GetSafeNormal of each
candidate's normal part. -/
noncomputable def planeNormals (valid : List FPlane) : List RVec3 :=
  valid.map fun p => getSafeNormal (planeNormal p)

/-- Spec wording for C3: the selector returns the candidate whose total
angular deviation is minimal, and among the minimizers the first in
enumeration order. -/
def SelectsFirstArgmin (valid : List FPlane) : Prop :=
  ∃ i, i < valid.length ∧ SelectMedian valid = valid.getD i defaultPlane ∧
    (∀ j, j < valid.length →
      angleSumAt (planeNormals valid) i ≤ angleSumAt (planeNormals valid) j) ∧
    (∀ j, j < i →
      angleSumAt (planeNormals valid) i < angleSumAt (planeNormals valid) j)

/-- Spec wording for C7: rotation angle = arccos(clamp(dot(up, normal),
-1, 1)). -/
noncomputable def specRotationAngle (n : RVec3) : ℝ :=
  Real.arccos (max (-1) (min (rdot upVector n) 1))

/-
Concrete inputs used by the individual claims.
-/

/-- Three exactly collinear points (0,0,0), (1,0,0), (2,0,0). -/
def colPts : List QVec3 := [⟨0, 0, 0⟩, ⟨1, 0, 0⟩, ⟨2, 0, 0⟩]

/-- Three non-collinear points whose unique plane has normal (0,0,1). -/
def triPts : List QVec3 := [⟨0, 0, 0⟩, ⟨1, 0, 0⟩, ⟨0, 1, 0⟩]

/-- The plane produced by the single non-degenerate triple of triPts. -/
def triPlane : FPlane := ⟨0, 0, 1, 0⟩

/-- Three non-collinear points whose unique plane has normal (0,0,-1),
antiparallel to the reference up axis. -/
def antiPts : List QVec3 := [⟨0, 0, 0⟩, ⟨0, 1, 0⟩, ⟨1, 0, 0⟩]

/-- The end-to-end scenario of C6: five points on the horizontal plane
z = 5. -/
def pts5 : List QVec3 :=
  [⟨0, 0, 5⟩, ⟨10, 0, 5⟩, ⟨0, 10, 5⟩, ⟨10, 10, 5⟩, ⟨5, 5, 5⟩]

/-- The plane with normal (0,0,1) through the pts5 cloud (w = 5). -/
def planeUp5 : FPlane := ⟨0, 0, 1, 5⟩

/-- The plane with normal (0,0,-1) through the pts5 cloud (w = -5). -/
def planeDown5 : FPlane := ⟨0, 0, -1, -5⟩

/-- A candidate plane with unit normal (0,0,1) through the origin. -/
def planeZ : FPlane := ⟨0, 0, 1, 0⟩

/-- A point cloud for the witnesses of C10: the middle point is farther
than threshold 2 from the origin. -/
def outlierPts : List QVec3 := [⟨0, 0, 0⟩, ⟨3, 0, 0⟩, ⟨1, 0, 0⟩]

/-- The unit vector (0,0,1). -/
def unitUp : RVec3 := ⟨0, 0, 1⟩

/-- The unit vector (0,0,-1). -/
def unitDown : RVec3 := ⟨0, 0, -1⟩

/-- The normals the selection loop compares on the pts5 candidate set. -/
def ns5 : List RVec3 :=
  [unitUp, unitUp, unitUp, unitDown, unitDown, unitDown, unitUp, unitDown]

/-
Helper lemmas about the embedded vector primitives.
-/

theorem rsizeSquared_mk (a b c : ℝ) : rsizeSquared ⟨a, b, c⟩ = a * a + b * b + c * c := rfl

theorem rsmul_one (v : RVec3) : rsmul 1 v = v := by
  cases v; simp [rsmul]

/-- GetSafeNormal fixes any vector of squared size one. -/
theorem getSafeNormal_of_unit (v : RVec3) (h : rsizeSquared v = 1) :
    getSafeNormal v = v := by
  rw [getSafeNormal, if_neg, rsize, h, Real.sqrt_one, inv_one, rsmul_one]
  rw [h, smallNumber]; norm_num

/-- GetSafeNormal of (0,0,c) for c at least one. -/
theorem getSafeNormal_zpos (c : ℝ) (h : 1 ≤ c) :
    getSafeNormal ⟨0, 0, c⟩ = ⟨0, 0, 1⟩ := by
  have hc0 : (0 : ℝ) < c := lt_of_lt_of_le one_pos h
  have hsq : rsizeSquared ⟨0, 0, c⟩ = c * c := by rw [rsizeSquared_mk]; ring
  rw [getSafeNormal, if_neg, rsize, hsq, Real.sqrt_mul_self hc0.le]
  · show RVec3.mk (c⁻¹ * 0) (c⁻¹ * 0) (c⁻¹ * c) = _
    rw [mul_zero, inv_mul_cancel₀ hc0.ne']
  · rw [hsq, smallNumber]; push_neg; nlinarith

/-- GetSafeNormal of (0,0,c) for c at most minus one. -/
theorem getSafeNormal_zneg (c : ℝ) (h : c ≤ -1) :
    getSafeNormal ⟨0, 0, c⟩ = ⟨0, 0, -1⟩ := by
  have hc0 : c < 0 := lt_of_le_of_lt h (by norm_num)
  have hsq : rsizeSquared ⟨0, 0, c⟩ = c * c := by rw [rsizeSquared_mk]; ring
  have habs : Real.sqrt (c * c) = -c := by
    rw [show c * c = -c * -c by ring, Real.sqrt_mul_self (by linarith)]
  rw [getSafeNormal, if_neg, rsize, hsq, habs]
  · show RVec3.mk ((-c)⁻¹ * 0) ((-c)⁻¹ * 0) ((-c)⁻¹ * c) = _
    rw [mul_zero, show (-c)⁻¹ * c = -((-c)⁻¹ * -c) by ring,
      inv_mul_cancel₀ (by linarith : (-c : ℝ) ≠ 0)]
  · rw [hsq, smallNumber]; push_neg; nlinarith

/-- GetSafeNormal of the zero vector is the zero vector. -/
theorem getSafeNormal_zeroVec : getSafeNormal ⟨0, 0, 0⟩ = rzero := by
  rw [getSafeNormal, if_pos]
  rw [rsizeSquared_mk, smallNumber]; norm_num

/-
The backward removal loop of RemoveOutliers is the order-preserving filter
of the points within the threshold (C10).
-/

theorem removeOutliersLoop_eq_filter (c : QVec3) (t2 : ℚ) :
    ∀ (i : ℕ) (pts : List QVec3), i ≤ pts.length →
      RemoveOutliersLoop c t2 i pts =
        (pts.take i).filter (fun p => qdistSquared p c ≤ t2) ++ pts.drop i := by
  intro i
  induction i with
  | zero => intro pts _; simp [RemoveOutliersLoop]
  | succ i ih =>
    intro pts h
    have hi : i < pts.length := by omega
    have hx : pts.getD i qzero = pts[i] := by
      rw [List.getD_eq_getElem?_getD, List.getElem?_eq_getElem hi]; rfl
    have htake : pts.take (i + 1) = pts.take i ++ [pts[i]] := by
      rw [List.take_succ, List.getElem?_eq_getElem hi]; rfl
    have hdrop : pts.drop i = pts[i] :: pts.drop (i + 1) :=
      List.drop_eq_getElem_cons hi
    rw [RemoveOutliersLoop]
    by_cases hrem : t2 < qdistSquared (pts.getD i qzero) c
    · rw [if_pos hrem]
      have hlentake : (pts.take i).length = i := by
        rw [List.length_take]; omega
      have hlen : i ≤ (removeAtIdx pts i).length := by
        rw [removeAtIdx, List.length_append, hlentake]; omega
      rw [ih _ hlen]
      have h1 : (removeAtIdx pts i).take i = pts.take i := by
        rw [removeAtIdx, List.take_append_of_le_length (by omega), List.take_take]
        simp
      have h2 : (removeAtIdx pts i).drop i = pts.drop (i + 1) := by
        rw [removeAtIdx, List.drop_append_of_le_length (by omega)]
        have : List.drop i (pts.take i) = [] :=
          List.drop_eq_nil_of_le (by omega)
        rw [this]; rfl
      rw [h1, h2, htake, List.filter_append]
      have : List.filter (fun p => decide (qdistSquared p c ≤ t2)) [pts[i]] = [] := by
        rw [hx] at hrem
        simp [List.filter_cons, not_le.mpr hrem]
      rw [this, List.append_nil]
    · rw [if_neg hrem]
      rw [ih _ (le_of_lt hi)]
      rw [htake, List.filter_append, hdrop]
      have : List.filter (fun p => decide (qdistSquared p c ≤ t2)) [pts[i]] = [pts[i]] := by
        rw [hx] at hrem
        simp [List.filter_cons, not_lt.mp hrem]
      rw [this, List.append_assoc]
      rfl

/-- C10: RemoveOutliers leaves exactly the points whose squared distance to
the centroid is at most the squared threshold, in their original relative
order and unchanged. -/
theorem removeOutliers_eq_filter (pts : List QVec3) (c : QVec3) (t : ℚ)
    (h : 0 ≤ t) :
    RemoveOutliers pts c t = pts.filter (fun p => qdistSquared p c ≤ t * t) := by
  rw [RemoveOutliers, removeOutliersLoop_eq_filter c (t * t) pts.length pts le_rfl,
    List.take_length, List.drop_length, List.append_nil]

/-- Witness for C10 at a concrete cloud, centroid and threshold. -/
theorem removeOutliers_eq_filter_witness :
    (0 : ℚ) ≤ 2 ∧
      RemoveOutliers outlierPts qzero 2 =
        outlierPts.filter (fun p => qdistSquared p qzero ≤ 2 * 2) :=
  ⟨by norm_num, removeOutliers_eq_filter outlierPts qzero 2 (by norm_num)⟩

/-
C4: fewer than 3 points.
-/

/-- C4: with fewer than 3 input points, the estimator returns the identity
rotation and signals InsufficientPoints; the plane pipeline is never
reached (had it run, the empty candidate set would have propagated as
none rather than a rotation). -/
theorem insufficientPoints_identity (pts : List QVec3) (h : pts.length < 3) :
    FindQuatFromPlane pts = some quatIdentity ∧
      signalOf pts = Signal.insufficientPoints := by
  constructor
  · rw [FindQuatFromPlane, if_pos h]
  · rw [signalOf, if_pos h]

/-- Witness for C4 at the empty point cloud. -/
theorem insufficientPoints_identity_witness :
    ([] : List QVec3).length < 3 ∧
      (FindQuatFromPlane [] = some quatIdentity ∧
        signalOf [] = Signal.insufficientPoints) :=
  ⟨by norm_num, insufficientPoints_identity [] (by norm_num)⟩

/-
C8: determinism.
-/

/-- C8: the estimator is a pure function of its input: equal input point
sequences produce equal output rotations (no state is shared between
calls in the embedding, which is a function of the point list alone). -/
theorem estimator_deterministic (pts pts' : List QVec3) (h : pts = pts') :
    FindQuatFromPlane pts = FindQuatFromPlane pts' ∧
      signalOf pts = signalOf pts' := by
  rw [h]; exact ⟨rfl, rfl⟩

/-- Witness for C8 at a concrete repeated invocation. -/
theorem estimator_deterministic_witness :
    colPts = colPts ∧
      (FindQuatFromPlane colPts = FindQuatFromPlane colPts ∧
        signalOf colPts = signalOf colPts) :=
  ⟨rfl, estimator_deterministic colPts colPts rfl⟩

/-
Evaluating ConstructPlaneFromPoints on concrete triples.
-/

/-- A triple whose cross product has squared size within the collinearity
tolerance produces no plane. -/
theorem construct_degenerate (A B C : QVec3)
    (h : qsizeSquared (qcross (qsub B A) (qsub C A)) ≤ kindaSmallNumber) :
    ConstructPlaneFromPoints A B C = none := by
  rw [ConstructPlaneFromPoints]
  exact if_pos h

/-- A triple whose cross product is (0,0,c) with c at least one produces the
plane with normal (0,0,1) and W equal to the z-coordinate of the first
point. -/
theorem construct_z_pos (A B C : QVec3) (c : ℚ)
    (hcp : qcross (qsub B A) (qsub C A) = ⟨0, 0, c⟩) (hc : 1 ≤ c) :
    ConstructPlaneFromPoints A B C = some ⟨0, 0, 1, (A.z : ℝ)⟩ := by
  rw [ConstructPlaneFromPoints]
  have hsq : qsizeSquared (⟨0, 0, c⟩ : QVec3) = c * c := by
    rw [qsizeSquared]; ring
  rw [hcp, if_neg (by rw [hsq, kindaSmallNumber]; push_neg; nlinarith)]
  have htr : toR ⟨0, 0, c⟩ = ⟨0, 0, (c : ℝ)⟩ := by
    rw [toR]; norm_num
  rw [htr, getSafeNormal_zpos (c : ℝ) (by exact_mod_cast hc)]
  rw [mkPlane, toR, rdot]
  norm_num

/-- A triple whose cross product is (0,0,c) with c at most minus one
produces the plane with normal (0,0,-1) and W equal to minus the
z-coordinate of the first point. -/
theorem construct_z_neg (A B C : QVec3) (c : ℚ)
    (hcp : qcross (qsub B A) (qsub C A) = ⟨0, 0, c⟩) (hc : c ≤ -1) :
    ConstructPlaneFromPoints A B C = some ⟨0, 0, -1, -(A.z : ℝ)⟩ := by
  rw [ConstructPlaneFromPoints]
  have hsq : qsizeSquared (⟨0, 0, c⟩ : QVec3) = c * c := by
    rw [qsizeSquared]; ring
  rw [hcp, if_neg (by rw [hsq, kindaSmallNumber]; push_neg; nlinarith)]
  have htr : toR ⟨0, 0, c⟩ = ⟨0, 0, (c : ℝ)⟩ := by
    rw [toR]; norm_num
  rw [htr, getSafeNormal_zneg (c : ℝ) (by exact_mod_cast hc)]
  rw [mkPlane, toR, rdot]
  norm_num

/-
The selection loop on a single candidate.
-/

/-- The angle sum of the only candidate of a singleton list is zero. -/
theorem angleSumAt_singleton (n : RVec3) : angleSumAt [n] 0 = 0 := by
  rw [angleSumAt]
  simp

/-- The selection loop on a single candidate returns it. -/
theorem selectMedian_singleton (p : FPlane) : SelectMedian [p] = p := by
  rw [SelectMedian]
  have h1 : ([p] : List FPlane).length = 1 := rfl
  rw [h1, show List.range 1 = [0] from rfl, List.foldl_cons, List.foldl_nil,
    selectStep]
  rw [show ([p].map fun q => getSafeNormal (planeNormal q)) =
    [getSafeNormal (planeNormal p)] from rfl]
  rw [angleSumAt_singleton, if_pos (by rw [maxFlt]; norm_num)]
  rfl

/-
Pipeline evaluation on the three-point clouds.
-/

theorem loopTriples_three : loopTriples 3 = [(0, 1, 2)] := by decide

theorem validPlanes_triPts : ValidPlanes triPts = [triPlane] := by
  rw [ValidPlanes, show triPts.length = 3 from rfl, loopTriples_three]
  rw [List.filterMap_cons]
  rw [show triPts.getD 0 qzero = ⟨0, 0, 0⟩ from rfl,
    show triPts.getD 1 qzero = ⟨1, 0, 0⟩ from rfl,
    show triPts.getD 2 qzero = ⟨0, 1, 0⟩ from rfl]
  rw [construct_z_pos ⟨0, 0, 0⟩ ⟨1, 0, 0⟩ ⟨0, 1, 0⟩ 1
    (by norm_num [qcross, qsub]) le_rfl]
  rw [triPlane, List.filterMap_nil]
  norm_num

theorem findMedianPlane_triPts : FindMedianPlane triPts = some triPlane := by
  rw [FindMedianPlane, validPlanes_triPts, selectMedian_singleton]

theorem validPlanes_colPts : ValidPlanes colPts = [] := by
  rw [ValidPlanes, show colPts.length = 3 from rfl, loopTriples_three]
  rw [List.filterMap_cons]
  rw [show colPts.getD 0 qzero = ⟨0, 0, 0⟩ from rfl,
    show colPts.getD 1 qzero = ⟨1, 0, 0⟩ from rfl,
    show colPts.getD 2 qzero = ⟨2, 0, 0⟩ from rfl]
  rw [construct_degenerate ⟨0, 0, 0⟩ ⟨1, 0, 0⟩ ⟨2, 0, 0⟩
    (by norm_num [qcross, qsub, qsizeSquared, kindaSmallNumber])]
  rfl

/-- C1: on the exactly collinear cloud (0,0,0),(1,0,0),(2,0,0) the
enumerator yields the empty candidate set, the spec-modelled signal is
NoValidPlane, but the estimator does not return the identity rotation:
the source reads ValidPlanes[0] out of bounds (line 104), modelled as the
result none instead of some rotation. -/
theorem collinear_empty_planes_crash :
    ValidPlanes colPts = [] ∧ signalOf colPts = Signal.noValidPlane ∧
      FindQuatFromPlane colPts = none := by
  refine ⟨validPlanes_colPts, ?_, ?_⟩
  · rw [signalOf, if_neg (by norm_num [colPts]), validPlanes_colPts]
  · rw [FindQuatFromPlane, if_neg (by norm_num [colPts]), FindMedianPlane,
      validPlanes_colPts]
    rfl

/-
C5: a selected normal antiparallel to the reference up axis.
-/

theorem validPlanes_antiPts : ValidPlanes antiPts = [⟨0, 0, -1, 0⟩] := by
  rw [ValidPlanes, show antiPts.length = 3 from rfl, loopTriples_three]
  rw [List.filterMap_cons]
  rw [show antiPts.getD 0 qzero = ⟨0, 0, 0⟩ from rfl,
    show antiPts.getD 1 qzero = ⟨0, 1, 0⟩ from rfl,
    show antiPts.getD 2 qzero = ⟨1, 0, 0⟩ from rfl]
  rw [construct_z_neg ⟨0, 0, 0⟩ ⟨0, 1, 0⟩ ⟨1, 0, 0⟩ (-1)
    (by norm_num [qcross, qsub]) le_rfl]
  rw [List.filterMap_nil]
  norm_num

theorem findMedianPlane_antiPts : FindMedianPlane antiPts = some ⟨0, 0, -1, 0⟩ := by
  rw [FindMedianPlane, validPlanes_antiPts, selectMedian_singleton]

/-- C5: on a cloud whose selected plane normal is (0,0,-1), exactly
antiparallel to the reference up axis, the source builds
FQuat(axis = zero vector, angle = pi), which is the zero quaternion
(0,0,0,0) — not a 180-degree rotation (a unit quaternion); its squared
size is 0 rather than 1. -/
theorem antiparallel_zero_quat :
    FindQuatFromPlane antiPts = some ⟨0, 0, 0, 0⟩ ∧
      quatSizeSquared ⟨0, 0, 0, 0⟩ = 0 := by
  constructor
  · rw [FindQuatFromPlane, if_neg (by norm_num [antiPts]),
      findMedianPlane_antiPts, Option.map_some']
    have hn : getSafeNormal (planeNormal ⟨0, 0, -1, 0⟩) = ⟨0, 0, -1⟩ := by
      rw [show planeNormal ⟨0, 0, -1, 0⟩ = ⟨0, 0, -1⟩ from rfl]
      exact getSafeNormal_zneg (-1) le_rfl
    rw [hn]
    have hcr : rcross upVector ⟨0, 0, -1⟩ = ⟨0, 0, 0⟩ := by
      rw [upVector, rcross]; norm_num
    have hdot : rdot upVector ⟨0, 0, -1⟩ = -1 := by
      rw [upVector, rdot]; norm_num
    rw [hcr, hdot, getSafeNormal_zeroVec]
    have hang : fmathAcos (-1) = Real.pi := by
      rw [fmathAcos, if_neg (lt_irrefl (-1)), if_pos (by norm_num),
        Real.arccos_neg_one]
    rw [hang, quatFromAxisAngle, rzero]
    norm_num [Real.cos_pi_div_two]
  · rw [quatSizeSquared]; norm_num

/-
List lemmas relating the nested loop bounds of FindMedianPlane to the
specification's filtered enumeration of all index triples (C2).
-/

theorem flatMap_nil_of_forall {α β : Type} (l : List α) (F : α → List β)
    (h : ∀ x ∈ l, F x = []) : l.flatMap F = [] := by
  induction l with
  | nil => rfl
  | cons a l ih =>
    rw [List.flatMap_cons, h a (List.mem_cons_self a l), List.nil_append]
    exact ih fun x hx => h x (List.mem_cons_of_mem a hx)

theorem flatMap_ite_const {α β : Type} (l : List α) (c : Prop) [Decidable c]
    (F : α → List β) :
    (l.flatMap fun x => if c then F x else []) = if c then l.flatMap F else [] := by
  by_cases hc : c
  · simp only [if_pos hc]
  · simp only [if_neg hc]
    exact flatMap_nil_of_forall l _ fun x _ => rfl

theorem flatMap_ite_filter {α β : Type} (l : List α) (p : α → Prop)
    [DecidablePred p] (F : α → List β) :
    (l.flatMap fun x => if p x then F x else []) =
      (l.filter fun x => decide (p x)).flatMap F := by
  induction l with
  | nil => rfl
  | cons a l ih =>
    rw [List.flatMap_cons, List.filter_cons]
    by_cases hp : p a
    · rw [if_pos hp, if_pos (by simpa using hp), List.flatMap_cons, ih]
    · rw [if_neg hp, if_neg (by simpa using hp), List.nil_append, ih]

theorem flatMap_ite_single {α β : Type} (l : List α) (p : α → Prop)
    [DecidablePred p] (f : α → β) :
    (l.flatMap fun x => if p x then [f x] else []) =
      (l.filter fun x => decide (p x)).map f := by
  rw [flatMap_ite_filter]
  induction (l.filter fun x => decide (p x)) with
  | nil => rfl
  | cons a m ih => rw [List.flatMap_cons, List.map_cons, ih]; rfl

theorem filter_range_lt (n a : ℕ) :
    (List.range n).filter (fun x => decide (a < x)) =
      List.range' (a + 1) (n - (a + 1)) := by
  induction n with
  | zero => rw [List.range_zero, List.filter_nil, Nat.zero_sub, List.range'_zero]
  | succ n ih =>
    rw [List.range_succ, List.filter_append, ih, List.filter_cons]
    by_cases h : a < n
    · rw [if_pos (by simpa using h), List.filter_nil]
      have h1 : n + 1 - (a + 1) = (n - (a + 1)) + 1 := by omega
      rw [h1, List.range'_concat]
      have h2 : a + 1 + 1 * (n - (a + 1)) = n := by omega
      rw [h2]
    · rw [if_neg (by simpa using h), List.filter_nil, List.append_nil]
      have h1 : n - (a + 1) = 0 := by omega
      have h2 : n + 1 - (a + 1) = 0 := by omega
      rw [h1, h2]

theorem range'_flatMap_drop_last {β : Type} (a n : ℕ) (G : ℕ → List β)
    (h : G (n - 1) = []) :
    (List.range' a (n - a)).flatMap G = (List.range' a (n - 1 - a)).flatMap G := by
  by_cases hc : a < n
  · have h1 : n - a = (n - 1 - a) + 1 := by omega
    rw [h1, List.range'_concat, List.flatMap_append,
      show a + 1 * (n - 1 - a) = n - 1 by omega, List.flatMap_singleton, h,
      List.append_nil]
  · have h1 : n - a = 0 := by omega
    have h2 : n - 1 - a = 0 := by omega
    rw [h1, h2]

theorem range_flatMap_shrink {β : Type} (n m : ℕ) (F : ℕ → List β) (hm : m ≤ n)
    (h : ∀ i, m ≤ i → F i = []) :
    (List.range n).flatMap F = (List.range m).flatMap F := by
  have hsplit : List.range n = List.range m ++ List.range' m (n - m) := by
    rw [List.range_eq_range', List.range_eq_range' m]
    have := List.range'_append 0 m (n - m) 1
    rw [show 0 + 1 * m = m by omega] at this
    rw [this, show n - m + m = n by omega]
  rw [hsplit, List.flatMap_append,
    flatMap_nil_of_forall (List.range' m (n - m)) F
      (fun x hx => h x (List.mem_range'_1.mp hx).1),
    List.append_nil]

theorem specTriples_eq_loopTriples (n : ℕ) : specTriples n = loopTriples n := by
  rw [specTriples, loopTriples]
  have hk : ∀ i j : ℕ,
      ((List.range n).flatMap fun k => if i < j ∧ j < k then [(i, j, k)] else []) =
        if i < j then (List.range' (j + 1) (n - (j + 1))).map (fun k => (i, j, k))
        else [] := by
    intro i j
    have e1 : (fun k => if i < j ∧ j < k then [(i, j, k)] else [])
        = fun k => if i < j then (if j < k then [(i, j, k)] else []) else [] := by
      funext k; rw [ite_and]
    rw [e1, flatMap_ite_const, flatMap_ite_single, filter_range_lt]
  have hj : ∀ i ∈ List.range n,
      ((List.range n).flatMap fun j => (List.range n).flatMap fun k =>
        if i < j ∧ j < k then [(i, j, k)] else []) =
        (List.range' (i + 1) (n - 1 - (i + 1))).flatMap fun j =>
          (List.range' (j + 1) (n - (j + 1))).map fun k => (i, j, k) := by
    intro i hi
    have hn1 : 1 ≤ n := by
      have := List.mem_range.mp hi; omega
    have step1 : ((List.range n).flatMap fun j => (List.range n).flatMap fun k =>
        if i < j ∧ j < k then [(i, j, k)] else []) =
        (List.range n).flatMap fun j =>
          if i < j then (List.range' (j + 1) (n - (j + 1))).map (fun k => (i, j, k))
          else [] :=
      List.flatMap_congr fun j _ => hk i j
    rw [step1, flatMap_ite_filter, filter_range_lt]
    exact range'_flatMap_drop_last (i + 1) n _
      (by rw [show n - (n - 1 + 1) = 0 by omega, List.range'_zero, List.map_nil])
  rw [List.flatMap_congr hj]
  exact range_flatMap_shrink n (n - 2) _ (by omega)
    (fun i hi => by rw [show n - 1 - (i + 1) = 0 by omega, List.range'_zero,
      List.flatMap_nil])

/-- Pointwise: ConstructPlaneFromPoints is the guarded plane constructor. -/
theorem filterMap_guarded {α β : Type} (l : List α) (q : α → ℚ) (e : ℚ)
    (f : α → β) :
    (l.filterMap fun t => if q t ≤ e then none else some (f t)) =
      (l.filter fun t => decide (e < q t)).map f := by
  induction l with
  | nil => rfl
  | cons a l ih =>
    rw [List.filter_cons]
    by_cases h : q a ≤ e
    · rw [List.filterMap_cons_none (by rw [if_pos h]),
        if_neg (by simpa using not_lt.mpr h), ih]
    · rw [@List.filterMap_cons_some _ _ _ _ _ (f a) (by rw [if_neg h]),
        if_pos (by simpa using not_le.mp h), List.map_cons, ih]

/-- C2: the plane enumerator visits each unordered index triple i < j < k
exactly once in lexicographic enumeration order, discards exactly the
triples whose cross product has squared magnitude at most the collinearity
epsilon, and emits for the rest the plane through points[i] with the
normalized cross product as normal: ValidPlanes equals the plane set
described by the specification. -/
theorem validPlanes_eq_specPlaneSet (pts : List QVec3) :
    ValidPlanes pts = specPlaneSet pts := by
  rw [ValidPlanes, specPlaneSet, specTriples_eq_loopTriples]
  exact filterMap_guarded (loopTriples pts.length) _ kindaSmallNumber _

/-
The selection loop as a first-found argmin (C3).
-/

/-- If no candidate in the index range beats the running minimum, the
selection loop keeps its state. -/
theorem selectFold_no_update (ns : List RVec3) (valid : List FPlane) :
    ∀ (k s : ℕ) (st : FPlane × ℝ),
      (∀ i, i ∈ List.range' s k → ¬ angleSumAt ns i < st.2) →
      (List.range' s k).foldl (selectStep ns valid) st = st := by
  intro k
  induction k with
  | zero => intro s st _; rfl
  | succ k ih =>
    intro s st h
    rw [List.range'_succ, List.foldl_cons]
    have hs : selectStep ns valid st s = st := by
      rw [selectStep,
        if_neg (h s (by rw [List.range'_succ]; exact List.mem_cons_self s _))]
    rw [hs]
    exact ih (s + 1) st fun i hi =>
      h i (by rw [List.range'_succ]; exact List.mem_cons_of_mem s hi)

/-- When some candidate in the index range beats the running minimum, the
selection loop ends at the first index attaining the least angle sum of
the range. -/
theorem selectFold_argmin (ns : List RVec3) (valid : List FPlane) :
    ∀ (k s : ℕ) (b : FPlane) (c : ℝ),
      (∃ i, i ∈ List.range' s k ∧ angleSumAt ns i < c) →
      ∃ i, i ∈ List.range' s k ∧
        (List.range' s k).foldl (selectStep ns valid) (b, c)
          = (valid.getD i defaultPlane, angleSumAt ns i) ∧
        angleSumAt ns i < c ∧
        (∀ j, j ∈ List.range' s k → angleSumAt ns i ≤ angleSumAt ns j) ∧
        (∀ j, j ∈ List.range' s k → j < i → angleSumAt ns i < angleSumAt ns j) := by
  intro k
  induction k with
  | zero =>
    intro s b c h
    rcases h with ⟨i, hi, _⟩
    rw [List.range'_zero] at hi
    exact absurd hi (List.not_mem_nil i)
  | succ k ih =>
    intro s b c hex
    rw [List.range'_succ] at hex ⊢
    rw [List.foldl_cons]
    by_cases hs : angleSumAt ns s < c
    · have hstep : selectStep ns valid (b, c) s
          = (valid.getD s defaultPlane, angleSumAt ns s) := by
        rw [selectStep, if_pos hs]
      rw [hstep]
      by_cases hex2 : ∃ i, i ∈ List.range' (s + 1) k ∧
          angleSumAt ns i < angleSumAt ns s
      · rcases ih (s + 1) (valid.getD s defaultPlane) (angleSumAt ns s) hex2 with
          ⟨i, hi, heq, hlt, hmin, hfirst⟩
        refine ⟨i, List.mem_cons_of_mem s hi, heq, lt_trans hlt hs, ?_, ?_⟩
        · intro j hj
          rcases List.mem_cons.mp hj with hj | hj
          · subst hj; exact le_of_lt hlt
          · exact hmin j hj
        · intro j hj hji
          rcases List.mem_cons.mp hj with hj | hj
          · subst hj; exact hlt
          · exact hfirst j hj hji
      · push_neg at hex2
        have hkeep : (List.range' (s + 1) k).foldl (selectStep ns valid)
            (valid.getD s defaultPlane, angleSumAt ns s)
            = (valid.getD s defaultPlane, angleSumAt ns s) :=
          selectFold_no_update ns valid k (s + 1) _
            fun i hi => not_lt.mpr (hex2 i hi)
        refine ⟨s, List.mem_cons_self s _, hkeep, hs, ?_, ?_⟩
        · intro j hj
          rcases List.mem_cons.mp hj with hj | hj
          · subst hj; exact le_rfl
          · exact hex2 j hj
        · intro j hj hjs
          rcases List.mem_cons.mp hj with hj | hj
          · omega
          · have := (List.mem_range'_1.mp hj).1; omega
    · have hstep : selectStep ns valid (b, c) s = (b, c) := by
        rw [selectStep, if_neg hs]
      rw [hstep]
      have hex2 : ∃ i, i ∈ List.range' (s + 1) k ∧ angleSumAt ns i < c := by
        rcases hex with ⟨i, hi, hic⟩
        rcases List.mem_cons.mp hi with h | h
        · subst h; exact absurd hic hs
        · exact ⟨i, h, hic⟩
      rcases ih (s + 1) b c hex2 with ⟨i, hi, heq, hlt, hmin, hfirst⟩
      refine ⟨i, List.mem_cons_of_mem s hi, heq, hlt, ?_, ?_⟩
      · intro j hj
        rcases List.mem_cons.mp hj with hj | hj
        · subst hj; exact le_of_lt (lt_of_lt_of_le hlt (not_lt.mp hs))
        · exact hmin j hj
      · intro j hj hji
        rcases List.mem_cons.mp hj with hj | hj
        · subst hj; exact lt_of_lt_of_le hlt (not_lt.mp hs)
        · exact hfirst j hj hji

/-- Every AngleSum is at most the candidate count times pi: each of its
terms is zero or an arccos value, hence at most pi. -/
theorem angleSumAt_le (ns : List RVec3) (i : ℕ) :
    angleSumAt ns i ≤ ns.length * Real.pi := by
  rw [angleSumAt]
  calc ∑ j ∈ Finset.range ns.length,
        (if j = i then 0 else angleBetween (ns.getD i rzero) (ns.getD j rzero))
      ≤ ∑ j ∈ Finset.range ns.length, Real.pi := by
        refine Finset.sum_le_sum fun j _ => ?_
        by_cases hj : j = i
        · rw [if_pos hj]; exact Real.pi_pos.le
        · rw [if_neg hj, angleBetween]; exact Real.arccos_le_pi _
    _ = ns.length * Real.pi := by
        rw [Finset.sum_const, Finset.card_range, nsmul_eq_mul]

/-- C3: for every non-empty candidate plane set of a size the source can
represent (TArray counts its elements with an int32, so a candidate array
holds at most 2^31 - 1 planes — every candidate set the program can build
satisfies this), the selection loop returns the plane with the minimal
total angular deviation, breaking ties by first occurrence in enumeration
order.  Each angle sum is at most (2^31 - 1) * pi, far below the MAX_flt
initialization of SmallestAngleSum, so the loop's first iteration already
updates the running minimum and the fold finds the first argmin. -/
theorem selectMedian_first_argmin (valid : List FPlane) (hne : valid ≠ [])
    (hlen : valid.length ≤ 2 ^ 31 - 1) :
    SelectsFirstArgmin valid := by
  have hpos : 0 < valid.length := List.length_pos.mpr hne
  have hnslen : (planeNormals valid).length = valid.length := by
    rw [planeNormals, List.length_map]
  have hlow : angleSumAt (planeNormals valid) 0 < maxFlt := by
    have h1 := angleSumAt_le (planeNormals valid) 0
    rw [hnslen] at h1
    have hc : (valid.length : ℝ) ≤ 2147483647 := by
      exact_mod_cast le_trans hlen (by norm_num)
    have hpi4 : Real.pi < 4 := Real.pi_lt_four
    have hpi0 : (0 : ℝ) < Real.pi := Real.pi_pos
    rw [maxFlt]
    nlinarith [mul_le_mul_of_nonneg_right hc hpi0.le]
  have hmem : 0 ∈ List.range' 0 valid.length := by
    rw [List.mem_range'_1]; omega
  rcases selectFold_argmin (planeNormals valid) valid valid.length 0
      (valid.headD defaultPlane) maxFlt ⟨0, hmem, hlow⟩ with
    ⟨i, hi, heq, _, hmin, hfirst⟩
  rw [List.mem_range'_1] at hi
  refine ⟨i, by omega, ?_, ?_, ?_⟩
  · rw [SelectMedian, List.range_eq_range',
      show (valid.map fun p => getSafeNormal (planeNormal p))
        = planeNormals valid from rfl, heq]
  · intro j hj
    exact hmin j (by rw [List.mem_range'_1]; omega)
  · intro j hj
    have hjlen : j < valid.length := by omega
    exact hfirst j (by rw [List.mem_range'_1]; omega) hj

/-- Witness for C3 at a concrete singleton candidate set. -/
theorem selectMedian_first_argmin_witness : SelectsFirstArgmin [planeZ] :=
  selectMedian_first_argmin [planeZ] (by simp) (by norm_num)

/-
C6: the horizontal five-point cloud at z = 5.
-/

theorem clampR_one : clampR 1 (-1) 1 = 1 := by
  rw [clampR, if_neg (by norm_num : ¬ (1 : ℝ) < -1), if_neg (lt_irrefl (1 : ℝ))]

theorem clampR_negOne : clampR (-1) (-1) 1 = -1 := by
  rw [clampR, if_neg (lt_irrefl (-1 : ℝ)), if_pos (by norm_num : (-1 : ℝ) < 1)]

theorem angleBetween_zz : angleBetween unitUp unitUp = 0 := by
  rw [angleBetween, show rdot unitUp unitUp = 1 from by
      rw [unitUp, rdot]; norm_num,
    clampR_one, Real.arccos_one]

theorem angleBetween_ud : angleBetween unitUp unitDown = Real.pi := by
  rw [angleBetween, show rdot unitUp unitDown = -1 from by
      rw [unitUp, unitDown, rdot]; norm_num,
    clampR_negOne, Real.arccos_neg_one]

theorem angleBetween_du : angleBetween unitDown unitUp = Real.pi := by
  rw [angleBetween, show rdot unitDown unitUp = -1 from by
      rw [unitUp, unitDown, rdot]; norm_num,
    clampR_negOne, Real.arccos_neg_one]

theorem angleBetween_dd : angleBetween unitDown unitDown = 0 := by
  rw [angleBetween, show rdot unitDown unitDown = 1 from by
      rw [unitDown, rdot]; norm_num,
    clampR_one, Real.arccos_one]

theorem loopTriples_five :
    loopTriples 5 = [(0, 1, 2), (0, 1, 3), (0, 1, 4), (0, 2, 3), (0, 2, 4),
      (0, 3, 4), (1, 2, 3), (1, 2, 4), (1, 3, 4), (2, 3, 4)] := by decide

theorem constructPts5_012 :
    ConstructPlaneFromPoints ⟨0, 0, 5⟩ ⟨10, 0, 5⟩ ⟨0, 10, 5⟩ = some planeUp5 := by
  rw [construct_z_pos ⟨0, 0, 5⟩ ⟨10, 0, 5⟩ ⟨0, 10, 5⟩ 100
    (by norm_num [qcross, qsub]) (by norm_num), planeUp5]
  norm_num

theorem constructPts5_013 :
    ConstructPlaneFromPoints ⟨0, 0, 5⟩ ⟨10, 0, 5⟩ ⟨10, 10, 5⟩ = some planeUp5 := by
  rw [construct_z_pos ⟨0, 0, 5⟩ ⟨10, 0, 5⟩ ⟨10, 10, 5⟩ 100
    (by norm_num [qcross, qsub]) (by norm_num), planeUp5]
  norm_num

theorem constructPts5_014 :
    ConstructPlaneFromPoints ⟨0, 0, 5⟩ ⟨10, 0, 5⟩ ⟨5, 5, 5⟩ = some planeUp5 := by
  rw [construct_z_pos ⟨0, 0, 5⟩ ⟨10, 0, 5⟩ ⟨5, 5, 5⟩ 50
    (by norm_num [qcross, qsub]) (by norm_num), planeUp5]
  norm_num

theorem constructPts5_023 :
    ConstructPlaneFromPoints ⟨0, 0, 5⟩ ⟨0, 10, 5⟩ ⟨10, 10, 5⟩ = some planeDown5 := by
  rw [construct_z_neg ⟨0, 0, 5⟩ ⟨0, 10, 5⟩ ⟨10, 10, 5⟩ (-100)
    (by norm_num [qcross, qsub]) (by norm_num), planeDown5]
  norm_num

theorem constructPts5_024 :
    ConstructPlaneFromPoints ⟨0, 0, 5⟩ ⟨0, 10, 5⟩ ⟨5, 5, 5⟩ = some planeDown5 := by
  rw [construct_z_neg ⟨0, 0, 5⟩ ⟨0, 10, 5⟩ ⟨5, 5, 5⟩ (-50)
    (by norm_num [qcross, qsub]) (by norm_num), planeDown5]
  norm_num

theorem constructPts5_034 :
    ConstructPlaneFromPoints ⟨0, 0, 5⟩ ⟨10, 10, 5⟩ ⟨5, 5, 5⟩ = none :=
  construct_degenerate _ _ _
    (by norm_num [qcross, qsub, qsizeSquared, kindaSmallNumber])

theorem constructPts5_123 :
    ConstructPlaneFromPoints ⟨10, 0, 5⟩ ⟨0, 10, 5⟩ ⟨10, 10, 5⟩ = some planeDown5 := by
  rw [construct_z_neg ⟨10, 0, 5⟩ ⟨0, 10, 5⟩ ⟨10, 10, 5⟩ (-100)
    (by norm_num [qcross, qsub]) (by norm_num), planeDown5]
  norm_num

theorem constructPts5_124 :
    ConstructPlaneFromPoints ⟨10, 0, 5⟩ ⟨0, 10, 5⟩ ⟨5, 5, 5⟩ = none :=
  construct_degenerate _ _ _
    (by norm_num [qcross, qsub, qsizeSquared, kindaSmallNumber])

theorem constructPts5_134 :
    ConstructPlaneFromPoints ⟨10, 0, 5⟩ ⟨10, 10, 5⟩ ⟨5, 5, 5⟩ = some planeUp5 := by
  rw [construct_z_pos ⟨10, 0, 5⟩ ⟨10, 10, 5⟩ ⟨5, 5, 5⟩ 50
    (by norm_num [qcross, qsub]) (by norm_num), planeUp5]
  norm_num

theorem constructPts5_234 :
    ConstructPlaneFromPoints ⟨0, 10, 5⟩ ⟨10, 10, 5⟩ ⟨5, 5, 5⟩ = some planeDown5 := by
  rw [construct_z_neg ⟨0, 10, 5⟩ ⟨10, 10, 5⟩ ⟨5, 5, 5⟩ (-50)
    (by norm_num [qcross, qsub]) (by norm_num), planeDown5]
  norm_num

theorem validPlanes_pts5 :
    ValidPlanes pts5 = [planeUp5, planeUp5, planeUp5, planeDown5, planeDown5,
      planeDown5, planeUp5, planeDown5] := by
  rw [ValidPlanes, show pts5.length = 5 from rfl, loopTriples_five]
  simp only [List.filterMap_cons, List.filterMap_nil, pts5,
    List.getD_cons_zero, List.getD_cons_succ]
  rw [constructPts5_012, constructPts5_013, constructPts5_014,
    constructPts5_023, constructPts5_024, constructPts5_034,
    constructPts5_123, constructPts5_124, constructPts5_134,
    constructPts5_234]

theorem gsn_up5 : getSafeNormal (planeNormal planeUp5) = unitUp := by
  rw [show planeNormal planeUp5 = unitUp from rfl]
  exact getSafeNormal_of_unit unitUp (by rw [unitUp, rsizeSquared_mk]; norm_num)

theorem gsn_down5 : getSafeNormal (planeNormal planeDown5) = unitDown := by
  rw [show planeNormal planeDown5 = unitDown from rfl]
  exact getSafeNormal_of_unit unitDown
    (by rw [unitDown, rsizeSquared_mk]; norm_num)

theorem map_planes5 :
    List.map (fun p => getSafeNormal (planeNormal p))
      [planeUp5, planeUp5, planeUp5, planeDown5, planeDown5, planeDown5,
        planeUp5, planeDown5] = ns5 := by
  simp only [List.map_cons, List.map_nil, gsn_up5, gsn_down5]
  rfl

theorem angleSum_ns5_0 : angleSumAt ns5 0 = 4 * Real.pi := by
  rw [angleSumAt, show ns5.length = 8 from rfl]
  rw [Finset.sum_range_succ, Finset.sum_range_succ, Finset.sum_range_succ,
    Finset.sum_range_succ, Finset.sum_range_succ, Finset.sum_range_succ,
    Finset.sum_range_succ, Finset.sum_range_succ, Finset.sum_range_zero]
  simp only [ns5, List.getD_cons_zero, List.getD_cons_succ]
  norm_num [angleBetween_zz, angleBetween_ud, angleBetween_du, angleBetween_dd]
  ring

theorem angleSum_ns5_1 : angleSumAt ns5 1 = 4 * Real.pi := by
  rw [angleSumAt, show ns5.length = 8 from rfl]
  rw [Finset.sum_range_succ, Finset.sum_range_succ, Finset.sum_range_succ,
    Finset.sum_range_succ, Finset.sum_range_succ, Finset.sum_range_succ,
    Finset.sum_range_succ, Finset.sum_range_succ, Finset.sum_range_zero]
  simp only [ns5, List.getD_cons_zero, List.getD_cons_succ]
  norm_num [angleBetween_zz, angleBetween_ud, angleBetween_du, angleBetween_dd]
  ring

theorem angleSum_ns5_2 : angleSumAt ns5 2 = 4 * Real.pi := by
  rw [angleSumAt, show ns5.length = 8 from rfl]
  rw [Finset.sum_range_succ, Finset.sum_range_succ, Finset.sum_range_succ,
    Finset.sum_range_succ, Finset.sum_range_succ, Finset.sum_range_succ,
    Finset.sum_range_succ, Finset.sum_range_succ, Finset.sum_range_zero]
  simp only [ns5, List.getD_cons_zero, List.getD_cons_succ]
  norm_num [angleBetween_zz, angleBetween_ud, angleBetween_du, angleBetween_dd]
  ring

theorem angleSum_ns5_3 : angleSumAt ns5 3 = 4 * Real.pi := by
  rw [angleSumAt, show ns5.length = 8 from rfl]
  rw [Finset.sum_range_succ, Finset.sum_range_succ, Finset.sum_range_succ,
    Finset.sum_range_succ, Finset.sum_range_succ, Finset.sum_range_succ,
    Finset.sum_range_succ, Finset.sum_range_succ, Finset.sum_range_zero]
  simp only [ns5, List.getD_cons_zero, List.getD_cons_succ]
  norm_num [angleBetween_zz, angleBetween_ud, angleBetween_du, angleBetween_dd]
  ring

theorem angleSum_ns5_4 : angleSumAt ns5 4 = 4 * Real.pi := by
  rw [angleSumAt, show ns5.length = 8 from rfl]
  rw [Finset.sum_range_succ, Finset.sum_range_succ, Finset.sum_range_succ,
    Finset.sum_range_succ, Finset.sum_range_succ, Finset.sum_range_succ,
    Finset.sum_range_succ, Finset.sum_range_succ, Finset.sum_range_zero]
  simp only [ns5, List.getD_cons_zero, List.getD_cons_succ]
  norm_num [angleBetween_zz, angleBetween_ud, angleBetween_du, angleBetween_dd]
  ring

theorem angleSum_ns5_5 : angleSumAt ns5 5 = 4 * Real.pi := by
  rw [angleSumAt, show ns5.length = 8 from rfl]
  rw [Finset.sum_range_succ, Finset.sum_range_succ, Finset.sum_range_succ,
    Finset.sum_range_succ, Finset.sum_range_succ, Finset.sum_range_succ,
    Finset.sum_range_succ, Finset.sum_range_succ, Finset.sum_range_zero]
  simp only [ns5, List.getD_cons_zero, List.getD_cons_succ]
  norm_num [angleBetween_zz, angleBetween_ud, angleBetween_du, angleBetween_dd]
  ring

theorem angleSum_ns5_6 : angleSumAt ns5 6 = 4 * Real.pi := by
  rw [angleSumAt, show ns5.length = 8 from rfl]
  rw [Finset.sum_range_succ, Finset.sum_range_succ, Finset.sum_range_succ,
    Finset.sum_range_succ, Finset.sum_range_succ, Finset.sum_range_succ,
    Finset.sum_range_succ, Finset.sum_range_succ, Finset.sum_range_zero]
  simp only [ns5, List.getD_cons_zero, List.getD_cons_succ]
  norm_num [angleBetween_zz, angleBetween_ud, angleBetween_du, angleBetween_dd]
  ring

theorem angleSum_ns5_7 : angleSumAt ns5 7 = 4 * Real.pi := by
  rw [angleSumAt, show ns5.length = 8 from rfl]
  rw [Finset.sum_range_succ, Finset.sum_range_succ, Finset.sum_range_succ,
    Finset.sum_range_succ, Finset.sum_range_succ, Finset.sum_range_succ,
    Finset.sum_range_succ, Finset.sum_range_succ, Finset.sum_range_zero]
  simp only [ns5, List.getD_cons_zero, List.getD_cons_succ]
  norm_num [angleBetween_zz, angleBetween_ud, angleBetween_du, angleBetween_dd]
  ring

theorem fourPi_lt_maxFlt : 4 * Real.pi < maxFlt := by
  have h4 : Real.pi < 4 := Real.pi_lt_four
  rw [maxFlt]
  nlinarith

theorem selectMedian_planes5 :
    SelectMedian [planeUp5, planeUp5, planeUp5, planeDown5, planeDown5,
      planeDown5, planeUp5, planeDown5] = planeUp5 := by
  rw [SelectMedian, map_planes5,
    show ([planeUp5, planeUp5, planeUp5, planeDown5, planeDown5, planeDown5,
      planeUp5, planeDown5] : List FPlane).length = 8 from rfl,
    show List.range 8 = [0, 1, 2, 3, 4, 5, 6, 7] from rfl,
    show ([planeUp5, planeUp5, planeUp5, planeDown5, planeDown5, planeDown5,
      planeUp5, planeDown5] : List FPlane).headD defaultPlane = planeUp5
      from rfl]
  rw [List.foldl_cons, show selectStep ns5 [planeUp5, planeUp5, planeUp5,
      planeDown5, planeDown5, planeDown5, planeUp5, planeDown5]
      (planeUp5, maxFlt) 0 = (planeUp5, 4 * Real.pi) from by
    rw [selectStep, angleSum_ns5_0, if_pos fourPi_lt_maxFlt]; rfl]
  rw [List.foldl_cons, show selectStep ns5 [planeUp5, planeUp5, planeUp5,
      planeDown5, planeDown5, planeDown5, planeUp5, planeDown5]
      (planeUp5, 4 * Real.pi) 1 = (planeUp5, 4 * Real.pi) from by
    rw [selectStep, angleSum_ns5_1, if_neg (lt_irrefl (4 * Real.pi))]]
  rw [List.foldl_cons, show selectStep ns5 [planeUp5, planeUp5, planeUp5,
      planeDown5, planeDown5, planeDown5, planeUp5, planeDown5]
      (planeUp5, 4 * Real.pi) 2 = (planeUp5, 4 * Real.pi) from by
    rw [selectStep, angleSum_ns5_2, if_neg (lt_irrefl (4 * Real.pi))]]
  rw [List.foldl_cons, show selectStep ns5 [planeUp5, planeUp5, planeUp5,
      planeDown5, planeDown5, planeDown5, planeUp5, planeDown5]
      (planeUp5, 4 * Real.pi) 3 = (planeUp5, 4 * Real.pi) from by
    rw [selectStep, angleSum_ns5_3, if_neg (lt_irrefl (4 * Real.pi))]]
  rw [List.foldl_cons, show selectStep ns5 [planeUp5, planeUp5, planeUp5,
      planeDown5, planeDown5, planeDown5, planeUp5, planeDown5]
      (planeUp5, 4 * Real.pi) 4 = (planeUp5, 4 * Real.pi) from by
    rw [selectStep, angleSum_ns5_4, if_neg (lt_irrefl (4 * Real.pi))]]
  rw [List.foldl_cons, show selectStep ns5 [planeUp5, planeUp5, planeUp5,
      planeDown5, planeDown5, planeDown5, planeUp5, planeDown5]
      (planeUp5, 4 * Real.pi) 5 = (planeUp5, 4 * Real.pi) from by
    rw [selectStep, angleSum_ns5_5, if_neg (lt_irrefl (4 * Real.pi))]]
  rw [List.foldl_cons, show selectStep ns5 [planeUp5, planeUp5, planeUp5,
      planeDown5, planeDown5, planeDown5, planeUp5, planeDown5]
      (planeUp5, 4 * Real.pi) 6 = (planeUp5, 4 * Real.pi) from by
    rw [selectStep, angleSum_ns5_6, if_neg (lt_irrefl (4 * Real.pi))]]
  rw [List.foldl_cons, show selectStep ns5 [planeUp5, planeUp5, planeUp5,
      planeDown5, planeDown5, planeDown5, planeUp5, planeDown5]
      (planeUp5, 4 * Real.pi) 7 = (planeUp5, 4 * Real.pi) from by
    rw [selectStep, angleSum_ns5_7, if_neg (lt_irrefl (4 * Real.pi))]]
  rw [List.foldl_nil]

theorem findMedianPlane_pts5 : FindMedianPlane pts5 = some planeUp5 := by
  rw [FindMedianPlane, validPlanes_pts5, selectMedian_planes5]

/-- C6: on the cloud (0,0,5),(10,0,5),(0,10,5),(10,10,5),(5,5,5), which lies
on the horizontal plane z = 5, the estimator returns the identity
rotation. -/
theorem horizontal_cloud_identity : FindQuatFromPlane pts5 = some quatIdentity := by
  rw [FindQuatFromPlane, if_neg (by norm_num [pts5]), findMedianPlane_pts5,
    Option.map_some', gsn_up5]
  rw [show rcross upVector unitUp = ⟨0, 0, 0⟩ from by
      rw [upVector, unitUp, rcross]; norm_num,
    show rdot upVector unitUp = 1 from by rw [upVector, unitUp, rdot]; norm_num,
    getSafeNormal_zeroVec,
    show fmathAcos 1 = 0 from by
      rw [fmathAcos, if_neg (by norm_num : ¬ (1 : ℝ) < -1),
        if_neg (lt_irrefl (1 : ℝ)), Real.arccos_one]]
  rw [quatFromAxisAngle, rzero, quatIdentity]
  norm_num

/-
C7: the rotation angle is arccos of the clamped dot product.
-/

/-- FMath::Acos agrees with arccos composed with clamp to [-1, 1]. -/
theorem fmathAcos_eq_clamp (x : ℝ) :
    fmathAcos x = Real.arccos (max (-1) (min x 1)) := by
  rw [fmathAcos]
  by_cases h1 : x < -1
  · rw [if_pos h1, min_eq_left (by linarith), max_eq_left (by linarith)]
  · rw [if_neg h1]
    push_neg at h1
    by_cases h2 : x < 1
    · rw [if_pos h2, min_eq_left h2.le, max_eq_right h1]
    · rw [if_neg h2, min_eq_right (not_lt.mp h2),
        max_eq_right (by norm_num : (-1 : ℝ) ≤ 1)]

/-- C7: whenever a median plane is selected, the rotation the estimator
returns is built from the rotation angle
arccos(clamp(dot((0,0,1), normal), -1, 1)); the clamp keeps the argument
of arccos in its domain, and the resulting angle always lies in
[0, pi]. -/
theorem rotation_angle_clamped (pts : List QVec3) (best : FPlane)
    (h3 : 3 ≤ pts.length) (hbest : FindMedianPlane pts = some best) :
    FindQuatFromPlane pts =
      some (quatFromAxisAngle
        (getSafeNormal (rcross upVector (getSafeNormal (planeNormal best))))
        (specRotationAngle (getSafeNormal (planeNormal best)))) ∧
      0 ≤ specRotationAngle (getSafeNormal (planeNormal best)) ∧
      specRotationAngle (getSafeNormal (planeNormal best)) ≤ Real.pi := by
  refine ⟨?_, Real.arccos_nonneg _, Real.arccos_le_pi _⟩
  rw [FindQuatFromPlane, if_neg (by omega), hbest, Option.map_some',
    specRotationAngle, ← fmathAcos_eq_clamp]

/-- Witness for C7 at the three-point cloud triPts. -/
theorem rotation_angle_clamped_witness :
    (3 ≤ triPts.length ∧ FindMedianPlane triPts = some triPlane) ∧
      (FindQuatFromPlane triPts =
        some (quatFromAxisAngle
          (getSafeNormal (rcross upVector (getSafeNormal (planeNormal triPlane))))
          (specRotationAngle (getSafeNormal (planeNormal triPlane)))) ∧
        0 ≤ specRotationAngle (getSafeNormal (planeNormal triPlane)) ∧
        specRotationAngle (getSafeNormal (planeNormal triPlane)) ≤ Real.pi) :=
  ⟨⟨by norm_num [triPts], findMedianPlane_triPts⟩,
    rotation_angle_clamped triPts triPlane (by norm_num [triPts])
      findMedianPlane_triPts⟩

/-
C9: every enumerated plane has a unit-length normal.
-/

theorem rsizeSquared_smul (c : ℝ) (v : RVec3) :
    rsizeSquared (rsmul c v) = c * c * rsizeSquared v := by
  cases v
  rw [rsmul, rsizeSquared, rsizeSquared]
  ring

theorem toR_sizeSquared (v : QVec3) :
    rsizeSquared (toR v) = ((qsizeSquared v : ℚ) : ℝ) := by
  cases v
  rw [toR, rsizeSquared, qsizeSquared]
  push_cast
  ring

/-- GetSafeNormal of any vector whose squared size reaches the tolerance
yields a vector of squared size one. -/
theorem getSafeNormal_unit_of (v : RVec3) (h : smallNumber ≤ rsizeSquared v) :
    rsizeSquared (getSafeNormal v) = 1 := by
  have h0 : 0 < rsizeSquared v :=
    lt_of_lt_of_le (by rw [smallNumber]; norm_num) h
  rw [getSafeNormal, if_neg (not_lt.mpr h), rsizeSquared_smul, rsize]
  rw [← mul_inv, Real.mul_self_sqrt h0.le]
  exact inv_mul_cancel₀ h0.ne'

theorem getD_mem_of_lt {α : Type} (l : List α) (i : ℕ) (d : α)
    (h : i < l.length) : l.getD i d ∈ l := by
  rw [List.getD_eq_getElem?_getD, List.getElem?_eq_getElem h]
  exact List.getElem_mem h

theorem selectFold_mem (ns : List RVec3) (valid : List FPlane) :
    ∀ (l : List ℕ) (st : FPlane × ℝ), st.1 ∈ valid →
      (∀ i ∈ l, i < valid.length) →
      (l.foldl (selectStep ns valid) st).1 ∈ valid := by
  intro l
  induction l with
  | nil => intro st h _; exact h
  | cons a l ih =>
    intro st hst hl
    rw [List.foldl_cons]
    refine ih _ ?_ fun i hi => hl i (List.mem_cons_of_mem a hi)
    rw [selectStep]
    by_cases h : angleSumAt ns a < st.2
    · rw [if_pos h]
      exact getD_mem_of_lt valid a defaultPlane (hl a (List.mem_cons_self a l))
    · rw [if_neg h]; exact hst

/-- The median plane returned by the selection loop is one of the
candidates. -/
theorem selectMedian_mem (valid : List FPlane) (h : valid ≠ []) :
    SelectMedian valid ∈ valid := by
  rw [SelectMedian]
  refine selectFold_mem _ valid _ _ ?_ fun i hi => List.mem_range.mp hi
  cases valid with
  | nil => exact absurd rfl h
  | cons a l => rw [List.headD_cons]; exact List.mem_cons_self a l

/-- C9: every plane emitted by the enumerator has a normal of squared size
one (the normalized cross product of a non-degenerate triple), so the
median plane selected from a non-empty candidate set also carries a
unit-length normal by construction. -/
theorem enumerated_normals_unit (pts : List QVec3) :
    (∀ p ∈ ValidPlanes pts, rsizeSquared (planeNormal p) = 1) ∧
      ∀ best, FindMedianPlane pts = some best →
        rsizeSquared (planeNormal best) = 1 := by
  have hall : ∀ p ∈ ValidPlanes pts, rsizeSquared (planeNormal p) = 1 := by
    intro p hp
    rw [ValidPlanes] at hp
    rcases List.mem_filterMap.mp hp with ⟨t, _, hc⟩
    rw [ConstructPlaneFromPoints] at hc
    by_cases hdeg : qsizeSquared
        (qcross (qsub (pts.getD t.2.1 qzero) (pts.getD t.1 qzero))
          (qsub (pts.getD t.2.2 qzero) (pts.getD t.1 qzero)))
        ≤ kindaSmallNumber
    · rw [if_pos hdeg] at hc
      exact absurd hc (by simp)
    · rw [if_neg hdeg] at hc
      have hcp := Option.some.inj hc
      rw [← hcp, show planeNormal (mkPlane (toR (pts.getD t.1 qzero))
        (getSafeNormal (toR (qcross
          (qsub (pts.getD t.2.1 qzero) (pts.getD t.1 qzero))
          (qsub (pts.getD t.2.2 qzero) (pts.getD t.1 qzero))))))
        = getSafeNormal (toR (qcross
          (qsub (pts.getD t.2.1 qzero) (pts.getD t.1 qzero))
          (qsub (pts.getD t.2.2 qzero) (pts.getD t.1 qzero)))) from rfl]
      apply getSafeNormal_unit_of
      rw [toR_sizeSquared]
      push_neg at hdeg
      have hq : (kindaSmallNumber : ℝ) < ((qsizeSquared (qcross
          (qsub (pts.getD t.2.1 qzero) (pts.getD t.1 qzero))
          (qsub (pts.getD t.2.2 qzero) (pts.getD t.1 qzero))) : ℚ) : ℝ) := by
        exact_mod_cast hdeg
      rw [smallNumber]
      rw [kindaSmallNumber] at hq
      push_cast at hq
      linarith
  refine ⟨hall, ?_⟩
  intro best hbest
  rw [FindMedianPlane] at hbest
  rcases hval : ValidPlanes pts with _ | ⟨q, rest⟩
  · rw [hval] at hbest
    exact absurd hbest (by simp)
  · rw [hval] at hbest
    have hsel : SelectMedian (q :: rest) = best := Option.some.inj hbest
    rw [← hsel]
    exact hall _ (by rw [hval]; exact selectMedian_mem (q :: rest) (by simp))

/-- Witness for C9: the single plane enumerated from triPts is a member of
the candidate set and has a unit-length normal. -/
theorem enumerated_normals_unit_witness :
    triPlane ∈ ValidPlanes triPts ∧
      rsizeSquared (planeNormal triPlane) = 1 := by
  have hm : triPlane ∈ ValidPlanes triPts := by
    rw [validPlanes_triPts]
    exact List.mem_cons_self triPlane []
  exact ⟨hm, (enumerated_normals_unit triPts).1 triPlane hm⟩

/-- Witness for C2 at the concrete three-point cloud triPts. -/
theorem validPlanes_eq_specPlaneSet_witness :
    ValidPlanes triPts = specPlaneSet triPts :=
  validPlanes_eq_specPlaneSet triPts
